import Mathlib

/-!
Shallow embedding of the Flask user-management API (src/app.py).

Modelling conventions:
* Python strings are Lean `String`; all data in the repository is ASCII, so
  Python `str.lower()` is `lowerStr` (ASCII char-wise lowering) and
  `str.strip()` is `pyStrip` (structural-recursion equivalent of trim).
* A JSON request body is a `Payload`: each of the four content fields is
  `Option`-valued, `none` meaning the key is absent from the dict
  (`'name' in data` is `d.name.isSome`).  The `age` value may be an integer
  or a string (`AgeVal`); JSON `null` values are outside the model.
* The store `self.users` is a Python dict keyed by the numeric id, with the
  invariant (maintained by the code) that the key equals the record's own
  `id` field.  It is modelled as an insertion-ordered list of `User` records
  looked up by their `id` field; `dictInsert` reproduces dict assignment
  (replace in place if the key exists, else append) and `dictRemove`
  reproduces `dict.pop`.
* `datetime.now().strftime(...)` is an explicit `now : String` argument.
* A record field read such as `user['email'].lower()` raises in Python when
  the value is `None`; the handler loops therefore return `Option` results,
  `none` standing for the raised exception (surfacing as the 500 /
  `internalError` branch, or an uncaught error in the search handler).
-/

/-- ASCII lowering, matching Python `str.lower()` on ASCII data. -/
def lowerStr (s : String) : String := String.mk (s.data.map Char.toLower)

/-- The whitespace characters stripped by Python `str.strip()` (ASCII part):
space, tab, newline, carriage return, vertical tab, form feed. -/
def isPyWS (c : Char) : Bool :=
  c == ' ' || c == '\t' || c == '\n' || c == '\r' ||
  c == Char.ofNat 11 || c == Char.ofNat 12

/-- Python `str.strip()`: drop whitespace from both ends. -/
def pyStrip (s : String) : String :=
  String.mk (((s.data.dropWhile isPyWS).reverse.dropWhile isPyWS).reverse)

/-- Decides whether `pre` is a prefix of `l`. -/
def listIsPre : List Char → List Char → Bool
  | [], _ => true
  | _ :: _, [] => false
  | a :: as, b :: bs => a == b && listIsPre as bs

/-- Decides whether `needle` occurs as a contiguous sublist of the second list. -/
def listHasSub (needle : List Char) : List Char → Bool
  | [] => listIsPre needle []
  | h :: t => listIsPre needle (h :: t) || listHasSub needle t

/-- Python `needle in hay` on strings: contiguous substring test. -/
def strContains (hay needle : String) : Bool :=
  listHasSub needle.data hay.data

/-- A JSON value supplied for the `age` field: integer or string. -/
inductive AgeVal where
  | ival (n : Int)
  | sval (s : String)
deriving DecidableEq

/-- Python truthiness of an age value (`0` and the empty string are falsy). -/
def AgeVal.truthy : AgeVal → Bool
  | AgeVal.ival n => n != 0
  | AgeVal.sval s => s != ""

/-- A parsed JSON request body; `none` = key absent from the dict. -/
structure Payload where
  name : Option String
  email : Option String
  age : Option AgeVal
  position : Option String
deriving DecidableEq

/-- A stored user record; content fields are `Option`-valued because
`create_user` stores `user_data.get(...)`, which can be `None`. -/
structure User where
  id : Nat
  name : Option String
  email : Option String
  age : Option AgeVal
  position : Option String
  created_at : String
  updated_at : String
deriving DecidableEq

/-- The in-memory store: the `users` dict (insertion-ordered, keyed by the
`id` field) together with the `next_id` counter. -/
structure Store where
  users : List User
  next_id : Nat
deriving DecidableEq

/-- Dict assignment `users[k] = u` with key `u.id`: replace in place when the
key is present, append otherwise. -/
def dictInsert (u : User) : List User → List User
  | [] => [u]
  | v :: vs => if v.id == u.id then u :: vs else v :: dictInsert u vs

/-- Dict `pop`: remove the (unique) entry with the given key. -/
def dictRemove (uid : Nat) : List User → List User
  | [] => []
  | v :: vs => if v.id == uid then vs else v :: dictRemove uid vs

/-- The three seeded records and `next_id = 4`, from `UserManager.__init__`. -/
def initStore : Store :=
  { users :=
      [ { id := 1, name := some "John Doe", email := some "john.doe@example.com",
          age := some (AgeVal.ival 30), position := some "Software Developer",
          created_at := "2025-09-29 21:42:00", updated_at := "2025-09-29 21:42:00" },
        { id := 2, name := some "Jane Smith", email := some "jane.smith@example.com",
          age := some (AgeVal.ival 28), position := some "Product Manager",
          created_at := "2025-09-29 21:42:00", updated_at := "2025-09-29 21:42:00" },
        { id := 3, name := some "Mike Johnson", email := some "mike.johnson@example.com",
          age := some (AgeVal.ival 35), position := some "DevOps Engineer",
          created_at := "2025-09-29 21:42:00", updated_at := "2025-09-29 21:42:00" } ],
    next_id := 4 }

/-- `UserManager.get_all_users`: the dict values in insertion order. -/
def get_all_users (st : Store) : List User := st.users

/-- `UserManager.get_user_by_id`: dict lookup by id. -/
def get_user_by_id (st : Store) (uid : Nat) : Option User :=
  st.users.find? (fun u => u.id == uid)

/-- `UserManager.create_user`: build the record from `user_data.get(...)`,
store it under `next_id`, increment the counter, return the record. -/
def create_user (st : Store) (d : Payload) (now : String) : User × Store :=
  let u : User :=
    { id := st.next_id, name := d.name, email := d.email, age := d.age,
      position := d.position, created_at := now, updated_at := now }
  (u, { users := dictInsert u st.users, next_id := st.next_id + 1 })

/-- The field updates of `UserManager.update_user`: overwrite exactly the
fields present in the payload, then refresh `updated_at`. -/
def applyFields (u : User) (d : Payload) (now : String) : User :=
  let u1 := match d.name with | some v => { u with name := some v } | none => u
  let u2 := match d.email with | some v => { u1 with email := some v } | none => u1
  let u3 := match d.age with | some v => { u2 with age := some v } | none => u2
  let u4 := match d.position with | some v => { u3 with position := some v } | none => u3
  { u4 with updated_at := now }

/-- `UserManager.update_user`: absent id gives `(none, unchanged store)`,
otherwise the found record is mutated in place. -/
def update_user (st : Store) (uid : Nat) (d : Payload) (now : String) :
    Option User × Store :=
  match st.users.find? (fun u => u.id == uid) with
  | none => (none, st)
  | some u =>
      let u2 := applyFields u d now
      (some u2, { st with users := dictInsert u2 st.users })

/-- `UserManager.delete_user`: pop and return the record, or `(none, st)`. -/
def delete_user (st : Store) (uid : Nat) : Option User × Store :=
  match st.users.find? (fun u => u.id == uid) with
  | none => (none, st)
  | some u => (some u, { st with users := dictRemove uid st.users })

/-- A single-quote character, used to build the literal error messages. -/
def apos : String := String.mk [Char.ofNat 39]

/-- The message produced by the required-field loop in `validate_user_data`. -/
def requiredMsg (f : String) : String := "Field " ++ apos ++ f ++ apos ++ " is required"

/-- Python truthiness of a possibly-absent string field. -/
def presentTruthyStr : Option String → Bool
  | some s => s != ""
  | none => false

/-- Python truthiness of a possibly-absent age field. -/
def presentTruthyAge : Option AgeVal → Bool
  | some a => a.truthy
  | none => false

/-- Character class of the local part of the email regular expression. -/
def isEmailLocalChar (c : Char) : Bool :=
  c.isAlphanum || c == '.' || c == '_' || c == '%' || c == '+' || c == '-'

/-- Character class of the domain part of the email regular expression. -/
def isEmailDomainChar (c : Char) : Bool :=
  c.isAlphanum || c == '.' || c == '-'

/-- Membership in the language of the anchored pattern
`[a-zA-Z0-9._%+-]+ @ [a-zA-Z0-9.-]+ . [a-zA-Z]{2,}` used by
`validate_user_data` (existential over the two split points). -/
def emailMatch (s : String) : Bool :=
  let cs := s.data
  (List.range cs.length).any (fun i =>
    cs.get? i == some '@' && decide (0 < i) &&
    (cs.take i).all isEmailLocalChar &&
    (let rest := cs.drop (i + 1)
     (List.range rest.length).any (fun j =>
       rest.get? j == some '.' && decide (0 < j) &&
       (rest.take j).all isEmailDomainChar &&
       (let tld := rest.drop (j + 1)
        decide (2 ≤ tld.length) && tld.all Char.isAlpha))))

/-- Value of a list of decimal digit characters. -/
def digitsVal (cs : List Char) : Nat :=
  cs.foldl (fun a c => a * 10 + (c.toNat - 48)) 0

/-- Python `int(s)` on a string: optional surrounding whitespace, optional
sign, one or more digits; `none` models the raised `ValueError`. -/
def pyIntStr (s : String) : Option Int :=
  match (pyStrip s).data with
  | [] => none
  | c :: rest =>
      if c == '+' then
        if !rest.isEmpty && rest.all Char.isDigit then
          some (Int.ofNat (digitsVal rest))
        else none
      else if c == '-' then
        if !rest.isEmpty && rest.all Char.isDigit then
          some (-(Int.ofNat (digitsVal rest)))
        else none
      else if (c :: rest).all Char.isDigit then
        some (Int.ofNat (digitsVal (c :: rest)))
      else none

/-- Python `int(...)` applied to an age value. -/
def pyIntOf : AgeVal → Option Int
  | AgeVal.ival n => some n
  | AgeVal.sval s => pyIntStr s

/-- `UserManager.validate_user_data(data, is_update)`: the collected list of
error messages, in the order the Python code appends them. -/
def validate (d : Payload) (is_update : Bool) : List String :=
  let errs1 :=
    if is_update then []
    else
      (if presentTruthyStr d.name then [] else [requiredMsg "name"]) ++
      (if presentTruthyStr d.email then [] else [requiredMsg "email"]) ++
      (if presentTruthyAge d.age then [] else [requiredMsg "age"]) ++
      (if presentTruthyStr d.position then [] else [requiredMsg "position"])
  let errs2 :=
    match d.email with
    | some e => if e != "" && !emailMatch e then ["Invalid email format"] else []
    | none => []
  let errs3 :=
    match d.age with
    | some a =>
        if a.truthy then
          match pyIntOf a with
          | some n =>
              if n < 0 || n > 150 then ["Age must be between 0 and 150"] else []
          | none => ["Age must be a valid number"]
        else []
    | none => []
  let errs4 :=
    match d.name with
    | some nm =>
        if nm != "" && decide ((pyStrip nm).length < 2) then
          ["Name must be at least 2 characters long"]
        else []
    | none => []
  let errs5 :=
    match d.position with
    | some p =>
        if p != "" && decide ((pyStrip p).length < 2) then
          ["Position must be at least 2 characters long"]
        else []
    | none => []
  errs1 ++ errs2 ++ errs3 ++ errs4 ++ errs5

/-- Result of the POST `/users` handler.  We model JSON request bodies only,
so the non-JSON 400 branch is out of scope; `internalError` is the 500
produced by the catch-all `except` clause. -/
inductive PostResp where
  | invalid (errs : List String)
  | conflict
  | created (u : User)
  | internalError
deriving DecidableEq

/-- Result of the PUT `/users/{id}` handler.  `updated r` carries the value
returned by `UserManager.update_user` (which the handler does not inspect). -/
inductive PutResp where
  | notFound
  | invalid (errs : List String)
  | conflict
  | updated (r : Option User)
  | internalError
deriving DecidableEq

/-- Result of the DELETE `/users/{id}` handler. -/
inductive DelResp where
  | notFound
  | deletedOk (u : User)
deriving DecidableEq

/-- Result of the GET `/users/{id}` handler. -/
inductive GetResp where
  | notFound
  | found (u : User)
deriving DecidableEq

/-- Result of the GET `/users/search` handler. -/
inductive SearchResp where
  | badRequest
  | results (users : List User) (total_count : Nat) (search_query : String)
  | internalError
deriving DecidableEq

/-- The duplicate-email loop of the POST handler:
`user['email'].lower() == data['email'].lower()` over all users, in order.
`none` models the exception raised when a stored email is `None` and is
reached before any match. -/
def findConflict (de : String) : List User → Option Bool
  | [] => some false
  | u :: us =>
      match u.email with
      | none => none
      | some e =>
          if lowerStr e == lowerStr de then some true else findConflict de us

/-- The duplicate-email loop of the PUT handler: the record with the id being
updated is skipped before its email is read (Python `and` short-circuit). -/
def findConflictExcl (uid : Nat) (de : String) : List User → Option Bool
  | [] => some false
  | u :: us =>
      if u.id == uid then findConflictExcl uid de us
      else
        match u.email with
        | none => none
        | some e =>
            if lowerStr e == lowerStr de then some true
            else findConflictExcl uid de us

/-- The POST `/users` handler (`create_user` route): validate, then the
case-insensitive duplicate-email scan, then `UserManager.create_user`. -/
def postUser (st : Store) (d : Payload) (now : String) : PostResp × Store :=
  if (validate d false).isEmpty then
    match d.email with
    | none => (PostResp.internalError, st)
    | some de =>
        match findConflict de st.users with
        | none => (PostResp.internalError, st)
        | some true => (PostResp.conflict, st)
        | some false =>
            (PostResp.created (create_user st d now).1, (create_user st d now).2)
  else (PostResp.invalid (validate d false), st)

/-- The PUT `/users/{id}` handler (`update_user` route): existence check,
update-mode validation, duplicate-email scan excluding the record itself
(only when the payload carries an email), then `UserManager.update_user`. -/
def putUser (st : Store) (uid : Nat) (d : Payload) (now : String) :
    PutResp × Store :=
  if (get_user_by_id st uid).isNone then (PutResp.notFound, st)
  else
    if (validate d true).isEmpty then
      match d.email with
      | none =>
          (PutResp.updated (update_user st uid d now).1,
           (update_user st uid d now).2)
      | some de =>
          match findConflictExcl uid de st.users with
          | none => (PutResp.internalError, st)
          | some true => (PutResp.conflict, st)
          | some false =>
              (PutResp.updated (update_user st uid d now).1,
               (update_user st uid d now).2)
    else (PutResp.invalid (validate d true), st)

/-- The DELETE `/users/{id}` handler (`delete_user` route). -/
def deleteUserH (st : Store) (uid : Nat) : DelResp × Store :=
  match delete_user st uid with
  | (none, st2) => (DelResp.notFound, st2)
  | (some u, st2) => (DelResp.deletedOk u, st2)

/-- The GET `/users/{id}` handler (`get_user` route). -/
def getUserH (st : Store) (uid : Nat) : GetResp :=
  match get_user_by_id st uid with
  | none => GetResp.notFound
  | some u => GetResp.found u

/-- The per-record test of the search loop, with Python `or` short-circuit:
a `None` field is only read (raising, modelled as `none`) when the fields
before it did not already match. -/
def userMatches (query : String) (u : User) : Option Bool :=
  match u.name with
  | none => none
  | some nm =>
      if strContains (lowerStr nm) (lowerStr query) then some true
      else
        match u.email with
        | none => none
        | some e =>
            if strContains (lowerStr e) (lowerStr query) then some true
            else
              match u.position with
              | none => none
              | some p => some (strContains (lowerStr p) (lowerStr query))

/-- The accumulation loop of the search handler over all users, in order. -/
def collectMatches (query : String) : List User → Option (List User)
  | [] => some []
  | u :: us =>
      match userMatches query u with
      | none => none
      | some true => (collectMatches query us).map (fun ms => u :: ms)
      | some false => collectMatches query us

/-- The GET `/users/search` handler: a missing `q` is `request.args.get`
defaulted to `""`; the raw parameter is stripped before both the blank check
and the matching. -/
def searchUsers (st : Store) (rawQ : String) : SearchResp :=
  if pyStrip rawQ == "" then SearchResp.badRequest
  else
    match collectMatches (pyStrip rawQ) st.users with
    | none => SearchResp.internalError
    | some ms => SearchResp.results ms ms.length (pyStrip rawQ)

/-- A store-level operation, for traces of raw `UserManager` calls. -/
inductive SOp where
  | screate (d : Payload) (now : String)
  | supdate (uid : Nat) (d : Payload) (now : String)
  | sdelete (uid : Nat)
deriving DecidableEq

/-- Run a trace of store operations, collecting the identifiers assigned by
`create_user` in the order they were assigned. -/
def runS : Store → List SOp → Store × List Nat
  | st, [] => (st, [])
  | st, SOp.screate d now :: ops =>
      let r := create_user st d now
      let rest := runS r.2 ops
      (rest.1, r.1.id :: rest.2)
  | st, SOp.supdate uid d now :: ops => runS (update_user st uid d now).2 ops
  | st, SOp.sdelete uid :: ops => runS (delete_user st uid).2 ops

/-- A handler-level operation, for traces of HTTP requests. -/
inductive HOp where
  | hpost (d : Payload) (now : String)
  | hput (uid : Nat) (d : Payload) (now : String)
  | hdel (uid : Nat)
deriving DecidableEq

/-- Run a trace of handler-level operations from a given store. -/
def runH : Store → List HOp → Store
  | st, [] => st
  | st, HOp.hpost d now :: ops => runH (postUser st d now).2 ops
  | st, HOp.hput uid d now :: ops => runH (putUser st uid d now).2 ops
  | st, HOp.hdel uid :: ops => runH (deleteUserH st uid).2 ops

/-- All five content fields of a record are populated and truthy (non-empty
strings, non-zero age, non-zero identifier). -/
def recordComplete (u : User) : Bool :=
  u.id != 0 && presentTruthyStr u.name && presentTruthyStr u.email &&
  presentTruthyAge u.age && presentTruthyStr u.position

/-- Every field the payload carries holds a truthy value. -/
def payloadTruthy (d : Payload) : Bool :=
  (match d.name with | some s => s != "" | none => true) &&
  (match d.email with | some s => s != "" | none => true) &&
  (match d.age with | some a => a.truthy | none => true) &&
  (match d.position with | some s => s != "" | none => true)

/-- Every update in the trace carries only truthy field values. -/
def opsTruthy : List HOp → Bool
  | [] => true
  | HOp.hput _ d _ :: ops => payloadTruthy d && opsTruthy ops
  | _ :: ops => opsTruthy ops

/-- The PUT handler reported a successful update carrying a record. -/
def isUpdatedSome : PutResp → Bool
  | PutResp.updated (some _) => true
  | _ => false

/-- The name, email and position fields are all present (no `None`), so the
search loop cannot raise. -/
def fieldsPresent (u : User) : Bool :=
  u.name.isSome && u.email.isSome && u.position.isSome

/-- The per-record search predicate as a total Boolean function, defined on
records whose fields are present. -/
def matchesQ (query : String) (u : User) : Bool :=
  strContains (lowerStr (u.name.getD "")) (lowerStr query) ||
  strContains (lowerStr (u.email.getD "")) (lowerStr query) ||
  strContains (lowerStr (u.position.getD "")) (lowerStr query)

/-- Looking up the just-inserted key returns the inserted record. -/
theorem find?_dictInsert (u : User) (l : List User) :
    (dictInsert u l).find? (fun v => v.id == u.id) = some u := by
  induction l with
  | nil => simp [dictInsert, List.find?]
  | cons v vs ih =>
      by_cases h : v.id = u.id
      · simp [dictInsert, h, List.find?]
      · have hb : (v.id == u.id) = false := by simp [h]
        simp [dictInsert, hb, List.find?, ih]

/-- Membership after dict insertion. -/
theorem mem_dictInsert {v u : User} {l : List User} :
    v ∈ dictInsert u l → v = u ∨ v ∈ l := by
  induction l with
  | nil => intro h; simp [dictInsert] at h; exact Or.inl h
  | cons w ws ih =>
      intro h
      by_cases hw : w.id = u.id
      · simp [dictInsert, hw] at h
        rcases h with h | h
        · exact Or.inl h
        · exact Or.inr (List.mem_cons_of_mem _ h)
      · have hb : (w.id == u.id) = false := by simp [hw]
        simp [dictInsert, hb] at h
        rcases h with h | h
        · exact Or.inr (by simp [h])
        · rcases ih h with h2 | h2
          · exact Or.inl h2
          · exact Or.inr (List.mem_cons_of_mem _ h2)

/-- Membership after dict removal. -/
theorem mem_dictRemove {v : User} {uid : Nat} {l : List User} :
    v ∈ dictRemove uid l → v ∈ l := by
  induction l with
  | nil => intro h; simp [dictRemove] at h
  | cons w ws ih =>
      intro h
      by_cases hw : w.id = uid
      · have hb : (w.id == uid) = true := by simp [hw]
        simp [dictRemove, hb] at h
        exact List.mem_cons_of_mem _ h
      · have hb : (w.id == uid) = false := by simp [hw]
        simp [dictRemove, hb] at h
        rcases h with h | h
        · simp [h]
        · exact List.mem_cons_of_mem _ (ih h)

/-- A successful keyed lookup returns a record carrying that key. -/
theorem find?_id_eq {l : List User} {uid : Nat} {u : User}
    (h : l.find? (fun v => v.id == uid) = some u) : u.id = uid := by
  have := List.find?_some h
  simpa using this

/-- After removing a key from a duplicate-free dict, lookup of that key fails. -/
theorem find?_dictRemove {l : List User} {uid : Nat}
    (h : (l.map User.id).Nodup) :
    (dictRemove uid l).find? (fun v => v.id == uid) = none := by
  induction l with
  | nil => simp [dictRemove, List.find?]
  | cons w ws ih =>
      simp only [List.map_cons, List.nodup_cons] at h
      by_cases hw : w.id = uid
      · have hb : (w.id == uid) = true := by simp [hw]
        simp only [dictRemove, hb, if_true]
        apply List.find?_eq_none.2
        intro v hv
        simp only [beq_iff_eq]
        intro hvid
        exact h.1 (by
          rw [← hw] at hvid
          exact (List.mem_map).2 ⟨v, hv, hvid⟩)
      · have hb : (w.id == uid) = false := by simp [hw]
        simp only [dictRemove, hb, if_false, List.find?, hb]
        exact ih h.2


/-- Inversion of the POST handler at a `created` result: validation passed
and the record and store are exactly those of `UserManager.create_user`. -/
theorem postUser_created {st : Store} {d : Payload} {now : String}
    {u : User} {st2 : Store}
    (h : postUser st d now = (PostResp.created u, st2)) :
    (validate d false).isEmpty = true ∧
    u = (create_user st d now).1 ∧ st2 = (create_user st d now).2 := by
  unfold postUser at h
  split at h
  next he =>
    split at h
    · simp at h
    · split at h
      · simp at h
      · simp at h
      · simp at h
        exact ⟨he, h.1.symm, h.2.symm⟩
  next he => simp at h

/-- The store returned by the POST handler: unchanged unless validation
passed and a record was created. -/
theorem postUser_store (st : Store) (d : Payload) (now : String) :
    (postUser st d now).2 = st ∨
    ((validate d false).isEmpty = true ∧
      (postUser st d now).2 = (create_user st d now).2) := by
  unfold postUser
  split
  next he =>
    split
    · simp
    · split <;> simp [he]
  next he => simp

/-- The store returned by the PUT handler: unchanged unless update-mode
validation passed and `UserManager.update_user` ran. -/
theorem putUser_store (st : Store) (uid : Nat) (d : Payload) (now : String) :
    (putUser st uid d now).2 = st ∨
    ((validate d true).isEmpty = true ∧
      (putUser st uid d now).2 = (update_user st uid d now).2) := by
  unfold putUser
  split
  · simp
  · split
    next he =>
      split
      · simp [he]
      · split <;> simp [he]
    next he => simp

/-- The DELETE handler always returns the store of `UserManager.delete_user`. -/
theorem deleteUserH_store (st : Store) (uid : Nat) :
    (deleteUserH st uid).2 = (delete_user st uid).2 := by
  unfold deleteUserH
  split <;> simp_all

/-- An empty create-mode validation result forces all four fields to be
present and truthy. -/
theorem validate_create_truthy {d : Payload}
    (h : (validate d false).isEmpty = true) :
    presentTruthyStr d.name = true ∧ presentTruthyStr d.email = true ∧
    presentTruthyAge d.age = true ∧ presentTruthyStr d.position = true := by
  by_cases h1 : presentTruthyStr d.name <;>
    by_cases h2 : presentTruthyStr d.email <;>
      by_cases h3 : presentTruthyAge d.age <;>
        by_cases h4 : presentTruthyStr d.position <;>
          simp_all [validate]

/-- Field-by-field description of `applyFields`: the identifier and
`created_at` never change, `updated_at` becomes `now`, and each content
field is the payload value when present and the old value otherwise. -/
theorem applyFields_spec (u : User) (d : Payload) (now : String) :
    (applyFields u d now).id = u.id ∧
    (applyFields u d now).created_at = u.created_at ∧
    (applyFields u d now).updated_at = now ∧
    (applyFields u d now).name =
      (match d.name with | some v => some v | none => u.name) ∧
    (applyFields u d now).email =
      (match d.email with | some v => some v | none => u.email) ∧
    (applyFields u d now).age =
      (match d.age with | some v => some v | none => u.age) ∧
    (applyFields u d now).position =
      (match d.position with | some v => some v | none => u.position) := by
  cases hn : d.name <;> cases he : d.email <;> cases ha : d.age <;>
    cases hp : d.position <;> simp [applyFields, hn, he, ha, hp]

/-- `update_user` never changes the identifier counter. -/
theorem update_user_next (st : Store) (uid : Nat) (d : Payload) (now : String) :
    (update_user st uid d now).2.next_id = st.next_id := by
  unfold update_user
  split <;> simp

/-- `delete_user` never changes the identifier counter. -/
theorem delete_user_next (st : Store) (uid : Nat) :
    (delete_user st uid).2.next_id = st.next_id := by
  unfold delete_user
  split <;> simp

/-- The identifier counter never decreases along a trace of store operations. -/
theorem runS_next_le (ops : List SOp) : ∀ st : Store,
    st.next_id ≤ (runS st ops).1.next_id := by
  induction ops with
  | nil => intro st; simp [runS]
  | cons op ops ih =>
      intro st
      cases op with
      | screate d now =>
          have h2 := ih (create_user st d now).2
          have h1 : st.next_id ≤ (create_user st d now).2.next_id :=
            Nat.le_succ _
          simpa [runS] using le_trans h1 h2
      | supdate uid d now =>
          have h2 := ih (update_user st uid d now).2
          rw [update_user_next] at h2
          simpa [runS] using h2
      | sdelete uid =>
          have h2 := ih (delete_user st uid).2
          rw [delete_user_next] at h2
          simpa [runS] using h2

/-- Every identifier assigned during a trace is at least the starting counter. -/
theorem runS_ids_lb (ops : List SOp) : ∀ st : Store,
    ∀ i ∈ (runS st ops).2, st.next_id ≤ i := by
  induction ops with
  | nil => intro st i hi; simp [runS] at hi
  | cons op ops ih =>
      intro st i hi
      cases op with
      | screate d now =>
          simp [runS] at hi
          rcases hi with hi | hi
          · simp [create_user, hi]
          · have := ih (create_user st d now).2 i hi
            exact le_trans (Nat.le_succ _) this
      | supdate uid d now =>
          simp [runS] at hi
          have := ih (update_user st uid d now).2 i hi
          rwa [update_user_next] at this
      | sdelete uid =>
          simp [runS] at hi
          have := ih (delete_user st uid).2 i hi
          rwa [delete_user_next] at this

/-- Every identifier assigned during a trace is below the final counter. -/
theorem runS_ids_ub (ops : List SOp) : ∀ st : Store,
    ∀ i ∈ (runS st ops).2, i < (runS st ops).1.next_id := by
  induction ops with
  | nil => intro st i hi; simp [runS] at hi
  | cons op ops ih =>
      intro st i hi
      cases op with
      | screate d now =>
          simp [runS] at hi ⊢
          rcases hi with hi | hi
          · have h1 : (create_user st d now).2.next_id ≤
                (runS (create_user st d now).2 ops).1.next_id :=
              runS_next_le ops _
            have h2 : i < (create_user st d now).2.next_id := by
              simp [create_user, hi]
            exact lt_of_lt_of_le h2 h1
          · exact ih (create_user st d now).2 i hi
      | supdate uid d now =>
          simp [runS] at hi ⊢
          exact ih (update_user st uid d now).2 i hi
      | sdelete uid =>
          simp [runS] at hi ⊢
          exact ih (delete_user st uid).2 i hi

/-- The identifiers assigned by `create_user` along any trace of store
operations are strictly increasing in order of assignment. -/
theorem runS_ids_pairwise (ops : List SOp) : ∀ st : Store,
    ((runS st ops).2).Pairwise (· < ·) := by
  induction ops with
  | nil => intro st; simp [runS]
  | cons op ops ih =>
      intro st
      cases op with
      | screate d now =>
          have hlb := runS_ids_lb ops (create_user st d now).2
          have htail := ih (create_user st d now).2
          simp [runS]
          refine ⟨?_, htail⟩
          intro j hj
          have := hlb j hj
          have hn : (create_user st d now).2.next_id = st.next_id + 1 := rfl
          rw [hn] at this
          have : st.next_id < j := lt_of_lt_of_le (Nat.lt_succ_self _) this
          simpa [create_user] using this
      | supdate uid d now =>
          simpa [runS] using ih (update_user st uid d now).2
      | sdelete uid =>
          simpa [runS] using ih (delete_user st uid).2

/-- The POST duplicate-email scan reports a conflict whenever some stored
record carries a case-insensitively equal email (and no record raises). -/
theorem findConflict_true {l : List User} {de : String} {v : User} {e : String}
    (hall : ∀ w ∈ l, w.email.isSome = true)
    (hv : v ∈ l) (he : v.email = some e)
    (hm : lowerStr e = lowerStr de) :
    findConflict de l = some true := by
  induction l with
  | nil => simp at hv
  | cons w ws ih =>
      have hw : w.email.isSome = true := hall w (by simp)
      rcases hwe : w.email with _ | ew
      · rw [hwe] at hw; simp at hw
      · unfold findConflict
        rw [hwe]
        by_cases hl : lowerStr ew == lowerStr de
        · simp [hl]
        · simp only [hl, if_neg, Bool.false_eq_true, if_false]
          rcases List.mem_cons.1 hv with hv1 | hv2
          · exfalso
            rw [hv1] at he
            rw [hwe] at he
            simp at he
            rw [← he] at hm
            simp [hm] at hl
          · exact ih (fun x hx => hall x (List.mem_cons_of_mem _ hx)) hv2

/-- The PUT duplicate-email scan reports a conflict whenever some record
other than the one being updated carries a case-insensitively equal email. -/
theorem findConflictExcl_true {l : List User} {uid : Nat} {de : String}
    {v : User} {e : String}
    (hall : ∀ w ∈ l, w.email.isSome = true)
    (hv : v ∈ l) (hid : v.id ≠ uid) (he : v.email = some e)
    (hm : lowerStr e = lowerStr de) :
    findConflictExcl uid de l = some true := by
  induction l with
  | nil => simp at hv
  | cons w ws ih =>
      unfold findConflictExcl
      by_cases hwid : w.id == uid
      · simp only [hwid, if_true]
        rcases List.mem_cons.1 hv with hv1 | hv2
        · exfalso; rw [hv1] at hid; simp at hwid; exact hid hwid
        · exact ih (fun x hx => hall x (List.mem_cons_of_mem _ hx)) hv2
      · simp only [hwid, Bool.false_eq_true, if_false]
        have hw : w.email.isSome = true := hall w (by simp)
        rcases hwe : w.email with _ | ew
        · rw [hwe] at hw; simp at hw
        · by_cases hl : lowerStr ew == lowerStr de
          · simp [hl]
          · simp only [hl, Bool.false_eq_true, if_false]
            rcases List.mem_cons.1 hv with hv1 | hv2
            · exfalso
              rw [hv1] at he
              rw [hwe] at he
              simp at he
              rw [← he] at hm
              simp [hm] at hl
            · exact ih (fun x hx => hall x (List.mem_cons_of_mem _ hx)) hv2

/-- The PUT duplicate-email scan passes when no record other than the one
being updated matches the payload email case-insensitively. -/
theorem findConflictExcl_false {l : List User} {uid : Nat} {de : String}
    (hall : ∀ w ∈ l, w.email.isSome = true)
    (hno : ∀ w ∈ l, w.id ≠ uid → ∀ e, w.email = some e →
      lowerStr e ≠ lowerStr de) :
    findConflictExcl uid de l = some false := by
  induction l with
  | nil => simp [findConflictExcl]
  | cons w ws ih =>
      unfold findConflictExcl
      by_cases hwid : w.id == uid
      · simp only [hwid, if_true]
        exact ih (fun x hx => hall x (List.mem_cons_of_mem _ hx))
          (fun x hx => hno x (List.mem_cons_of_mem _ hx))
      · simp only [hwid, Bool.false_eq_true, if_false]
        have hw : w.email.isSome = true := hall w (by simp)
        rcases hwe : w.email with _ | ew
        · rw [hwe] at hw; simp at hw
        · have hne : lowerStr ew ≠ lowerStr de := by
            apply hno w (by simp) (by simpa using hwid) ew hwe
          simp only [beq_iff_eq, hne, if_false]
          exact ih (fun x hx => hall x (List.mem_cons_of_mem _ hx))
            (fun x hx => hno x (List.mem_cons_of_mem _ hx))

/-- On a record whose fields are present, the search loop body computes the
total Boolean match predicate. -/
theorem userMatches_total {q : String} {u : User}
    (h : fieldsPresent u = true) :
    userMatches q u = some (matchesQ q u) := by
  rcases hn : u.name with _ | nm <;> rcases he : u.email with _ | e <;>
    rcases hp : u.position with _ | p <;>
      simp_all [fieldsPresent, userMatches, matchesQ]
  by_cases h1 : strContains (lowerStr nm) (lowerStr q) <;>
    by_cases h2 : strContains (lowerStr e) (lowerStr q) <;>
      simp_all

/-- On a store whose records all have their fields present, the search loop
returns exactly the records satisfying the match predicate, in order. -/
theorem collectMatches_total {q : String} {l : List User}
    (h : ∀ u ∈ l, fieldsPresent u = true) :
    collectMatches q l = some (l.filter (fun u => matchesQ q u)) := by
  induction l with
  | nil => simp [collectMatches]
  | cons u us ih =>
      have hu := userMatches_total (q := q) (h u (by simp))
      have ihs := ih (fun x hx => h x (List.mem_cons_of_mem _ hx))
      unfold collectMatches
      rw [hu]
      by_cases hm : matchesQ q u
      · simp [hm, ihs, List.filter]
      · simp [hm, ihs, List.filter]

/-- Dict insertion preserves a pointwise Boolean invariant. -/
theorem all_dictInsert {p : User → Bool} {u : User} {l : List User}
    (hu : p u = true) (hl : l.all p = true) :
    (dictInsert u l).all p = true := by
  induction l with
  | nil => simp [dictInsert, hu]
  | cons v vs ih =>
      simp only [List.all_cons, Bool.and_eq_true] at hl
      unfold dictInsert
      by_cases hv : v.id == u.id
      · simp [hv, hu, hl.2]
      · simp only [hv, Bool.false_eq_true, if_false, List.all_cons,
          Bool.and_eq_true]
        exact ⟨hl.1, ih hl.2⟩

/-- Dict removal preserves a pointwise Boolean invariant. -/
theorem all_dictRemove {p : User → Bool} {uid : Nat} {l : List User}
    (hl : l.all p = true) :
    (dictRemove uid l).all p = true := by
  rw [List.all_eq_true] at hl ⊢
  intro v hv
  exact hl v (mem_dictRemove hv)

/-- Updating a complete record with a payload all of whose present fields
are truthy yields a complete record. -/
theorem applyFields_complete {u : User} {d : Payload} {now : String}
    (hu : recordComplete u = true) (hd : payloadTruthy d = true) :
    recordComplete (applyFields u d now) = true := by
  obtain ⟨hid, hcr, hup, hnm, hem, hag, hpo⟩ := applyFields_spec u d now
  simp only [recordComplete, Bool.and_eq_true] at hu ⊢
  simp only [payloadTruthy, Bool.and_eq_true] at hd
  refine ⟨⟨⟨⟨?_, ?_⟩, ?_⟩, ?_⟩, ?_⟩
  · rw [hid]; exact hu.1.1.1.1
  · rw [hnm]
    rcases hn : d.name with _ | v
    · exact hu.1.1.1.2
    · rw [hn] at hd; simpa [presentTruthyStr] using hd.1.1.1
  · rw [hem]
    rcases hn : d.email with _ | v
    · exact hu.1.1.2
    · rw [hn] at hd; simpa [presentTruthyStr] using hd.1.1.2
  · rw [hag]
    rcases hn : d.age with _ | v
    · exact hu.1.2
    · rw [hn] at hd; simpa [presentTruthyAge] using hd.1.2
  · rw [hpo]
    rcases hn : d.position with _ | v
    · exact hu.2
    · rw [hn] at hd; simpa [presentTruthyStr] using hd.2

/-- A record created from a payload that passed create-mode validation is
complete, provided the identifier counter is positive. -/
theorem create_user_complete {st : Store} {d : Payload} {now : String}
    (hv : (validate d false).isEmpty = true) (hn : 0 < st.next_id) :
    recordComplete (create_user st d now).1 = true := by
  obtain ⟨h1, h2, h3, h4⟩ := validate_create_truthy hv
  simp only [recordComplete, create_user, Bool.and_eq_true]
  refine ⟨⟨⟨⟨?_, ?_⟩, ?_⟩, ?_⟩, ?_⟩ <;>
    simp_all [presentTruthyStr, presentTruthyAge]
  omega

/-- `update_user` with an all-truthy payload preserves completeness of every
stored record. -/
theorem update_user_all (st : Store) (uid : Nat) (d : Payload) (now : String)
    (hall : st.users.all recordComplete = true)
    (hd : payloadTruthy d = true) :
    (update_user st uid d now).2.users.all recordComplete = true := by
  unfold update_user
  cases hf : st.users.find? (fun u => u.id == uid) with
  | none => simpa using hall
  | some u =>
      have hu : u ∈ st.users := List.mem_of_find?_eq_some hf
      have hc : recordComplete u = true := (List.all_eq_true.1 hall) u hu
      simpa using all_dictInsert (applyFields_complete hc hd) hall

/-- `delete_user` preserves completeness of every stored record. -/
theorem delete_user_all (st : Store) (uid : Nat)
    (hall : st.users.all recordComplete = true) :
    (delete_user st uid).2.users.all recordComplete = true := by
  unfold delete_user
  cases hf : st.users.find? (fun u => u.id == uid) with
  | none => simpa using hall
  | some u => simpa using all_dictRemove hall

/-- Invariant for handler traces: starting from a store of complete records
with a positive counter, if every PUT payload in the trace assigns only
truthy values then every stored record stays complete. -/
theorem runH_complete (ops : List HOp) : ∀ st : Store,
    st.users.all recordComplete = true → 0 < st.next_id →
    opsTruthy ops = true →
    (runH st ops).users.all recordComplete = true := by
  induction ops with
  | nil => intro st hall _ _; simpa [runH] using hall
  | cons op ops ih =>
      intro st hall hpos hops
      cases op with
      | hpost d now =>
          have hops2 : opsTruthy ops = true := by simpa [opsTruthy] using hops
          rcases postUser_store st d now with hst | ⟨hv, hst⟩
          · simpa [runH, hst] using ih st hall hpos hops2
          · have hnew : recordComplete (create_user st d now).1 = true :=
              create_user_complete hv hpos
            have hall2 : (create_user st d now).2.users.all recordComplete = true := by
              simpa [create_user] using all_dictInsert hnew hall
            have hpos2 : 0 < (create_user st d now).2.next_id := by
              simp [create_user]
            simpa [runH, hst] using
              ih (create_user st d now).2 hall2 hpos2 hops2
      | hput uid d now =>
          have hops2 : payloadTruthy d = true ∧ opsTruthy ops = true := by
            simpa [opsTruthy] using hops
          rcases putUser_store st uid d now with hst | ⟨hv, hst⟩
          · simpa [runH, hst] using ih st hall hpos hops2.2
          · have hall2 := update_user_all st uid d now hall hops2.1
            have hpos2 : 0 < (update_user st uid d now).2.next_id := by
              rw [update_user_next]; exact hpos
            simpa [runH, hst] using
              ih (update_user st uid d now).2 hall2 hpos2 hops2.2
      | hdel uid =>
          have hops2 : opsTruthy ops = true := by simpa [opsTruthy] using hops
          have hst := deleteUserH_store st uid
          have hall2 := delete_user_all st uid hall
          have hpos2 : 0 < (delete_user st uid).2.next_id := by
            rw [delete_user_next]; exact hpos
          simpa [runH, hst] using ih (delete_user st uid).2 hall2 hpos2 hops2

/-- Claim C1: for every creation payload accepted by the POST handler (result
`created`), the new identifier is strictly greater than every identifier
previously assigned (the three seed identifiers 1,2,3 and every identifier
assigned along the preceding trace of store operations), the first create
from the seeded state assigns identifier 4, and an immediately subsequent
get with the new identifier returns exactly the record create returned. -/
theorem flask_C1 (ops : List SOp) (d : Payload) (now : String)
    (u : User) (st2 : Store)
    (h : postUser (runS initStore ops).1 d now = (PostResp.created u, st2)) :
    (∀ i ∈ 1 :: 2 :: 3 :: (runS initStore ops).2, i < u.id) ∧
    (ops = [] → u.id = 4) ∧
    get_user_by_id st2 u.id = some u := by
  obtain ⟨hv, hu, hst⟩ := postUser_created h
  have hid : u.id = (runS initStore ops).1.next_id := by rw [hu]; rfl
  have h4 : 4 ≤ (runS initStore ops).1.next_id := runS_next_le ops initStore
  refine ⟨?_, ?_, ?_⟩
  · intro i hi
    rw [hid]
    simp only [List.mem_cons] at hi
    rcases hi with hi | hi | hi | hi
    · omega
    · omega
    · omega
    · exact runS_ids_ub ops initStore i hi
  · intro hops
    rw [hops] at hid
    simpa [runS, initStore] using hid
  · rw [hst, hu]
    show (dictInsert (create_user (runS initStore ops).1 d now).1
        (runS initStore ops).1.users).find?
        (fun v => v.id == (create_user (runS initStore ops).1 d now).1.id) =
      some (create_user (runS initStore ops).1 d now).1
    exact find?_dictInsert _ _

/-- Claim C2: for every stored record and every partial update payload, the
store update returns the record with exactly the payload-named fields
replaced, every unnamed field equal to its pre-update value, `updated_at`
refreshed to the current time, and `id` and `created_at` unchanged; the
updated record is what is stored. -/
theorem flask_C2 (st : Store) (uid : Nat) (d : Payload) (now : String)
    (u0 : User) (h : get_user_by_id st uid = some u0) :
    update_user st uid d now =
      (some (applyFields u0 d now),
       { st with users := dictInsert (applyFields u0 d now) st.users }) ∧
    (applyFields u0 d now).id = u0.id ∧
    (applyFields u0 d now).created_at = u0.created_at ∧
    (applyFields u0 d now).updated_at = now ∧
    (applyFields u0 d now).name =
      (match d.name with | some v => some v | none => u0.name) ∧
    (applyFields u0 d now).email =
      (match d.email with | some v => some v | none => u0.email) ∧
    (applyFields u0 d now).age =
      (match d.age with | some v => some v | none => u0.age) ∧
    (applyFields u0 d now).position =
      (match d.position with | some v => some v | none => u0.position) ∧
    get_user_by_id (update_user st uid d now).2 uid =
      some (applyFields u0 d now) := by
  unfold get_user_by_id at h
  have heq : update_user st uid d now =
      (some (applyFields u0 d now),
       { st with users := dictInsert (applyFields u0 d now) st.users }) := by
    unfold update_user
    rw [h]
  obtain ⟨h1, h2, h3, h4, h5, h6, h7⟩ := applyFields_spec u0 d now
  refine ⟨heq, h1, h2, h3, h4, h5, h6, h7, ?_⟩
  rw [heq]
  show (dictInsert (applyFields u0 d now) st.users).find?
      (fun v => v.id == uid) = some (applyFields u0 d now)
  have hvid : (applyFields u0 d now).id = uid := by
    rw [h1]; exact find?_id_eq h
  rw [← hvid]
  exact find?_dictInsert _ _

/-- Claim C7: updating an identifier not present in the store returns absent
and leaves the store (record mapping and counter) exactly unchanged; the
operation is a total function, absence is a normal return value. -/
theorem flask_C7 (st : Store) (uid : Nat) (d : Payload) (now : String)
    (h : get_user_by_id st uid = none) :
    update_user st uid d now = (none, st) := by
  unfold get_user_by_id at h
  unfold update_user
  rw [h]

/-- Claim C8: along every trace of store operations from the seeded state,
the identifiers assigned by create are strictly increasing (hence an
identifier once assigned and later deleted is never assigned again), and
the next-identifier counter never decreases under any operations. -/
theorem flask_C8 (ops : List SOp) :
    ((runS initStore ops).2).Pairwise (· < ·) ∧
    (∀ (st : Store) (tail : List SOp),
      st.next_id ≤ (runS st tail).1.next_id) :=
  ⟨runS_ids_pairwise ops initStore, fun st tail => runS_next_le tail st⟩

set_option maxRecDepth 40000 in
/-- Witness for C1 at the seeded state with a concrete valid payload. -/
theorem flask_C1_witness :
    get_user_by_id
      (create_user initStore
        { name := some "Alice Brown", email := some "alice@example.com",
          age := some (AgeVal.ival 25), position := some "Designer" }
        "2025-10-12 12:00:00").2
      (create_user initStore
        { name := some "Alice Brown", email := some "alice@example.com",
          age := some (AgeVal.ival 25), position := some "Designer" }
        "2025-10-12 12:00:00").1.id =
      some (create_user initStore
        { name := some "Alice Brown", email := some "alice@example.com",
          age := some (AgeVal.ival 25), position := some "Designer" }
        "2025-10-12 12:00:00").1 :=
  (flask_C1 []
    { name := some "Alice Brown", email := some "alice@example.com",
      age := some (AgeVal.ival 25), position := some "Designer" }
    "2025-10-12 12:00:00"
    (create_user initStore
      { name := some "Alice Brown", email := some "alice@example.com",
        age := some (AgeVal.ival 25), position := some "Designer" }
      "2025-10-12 12:00:00").1
    (create_user initStore
      { name := some "Alice Brown", email := some "alice@example.com",
        age := some (AgeVal.ival 25), position := some "Designer" }
      "2025-10-12 12:00:00").2
    (by decide)).2.2

set_option maxRecDepth 40000 in
/-- Witness for C2: renaming seed user 1 stores exactly the updated record. -/
theorem flask_C2_witness :
    get_user_by_id
      (update_user initStore 1
        { name := some "Johnny Doe", email := none, age := none,
          position := none } "2025-10-12 13:00:00").2 1 =
      some (applyFields
        { id := 1, name := some "John Doe",
          email := some "john.doe@example.com",
          age := some (AgeVal.ival 30), position := some "Software Developer",
          created_at := "2025-09-29 21:42:00",
          updated_at := "2025-09-29 21:42:00" }
        { name := some "Johnny Doe", email := none, age := none,
          position := none } "2025-10-12 13:00:00") :=
  (flask_C2 initStore 1
    { name := some "Johnny Doe", email := none, age := none,
      position := none } "2025-10-12 13:00:00"
    { id := 1, name := some "John Doe", email := some "john.doe@example.com",
      age := some (AgeVal.ival 30), position := some "Software Developer",
      created_at := "2025-09-29 21:42:00",
      updated_at := "2025-09-29 21:42:00" }
    (by decide)).2.2.2.2.2.2.2.2

/-- Witness for C7 at the absent identifier 99. -/
theorem flask_C7_witness :
    update_user initStore 99
      { name := some "Ghost", email := none, age := none, position := none }
      "2025-10-12 14:00:00" =
      (none, initStore) :=
  flask_C7 initStore 99
    { name := some "Ghost", email := none, age := none, position := none }
    "2025-10-12 14:00:00" (by decide)

/-- Claim C5: validation is a pure function of payload and mode returning
all triggered messages together; on the create payload with empty name,
email "bad", age -5 and empty position it returns exactly four distinct
messages; the POST handler reports them all in one ValidationFailed
response; and an empty validation result never yields ValidationFailed. -/
theorem flask_C5 :
    validate { name := some "", email := some "bad",
               age := some (AgeVal.ival (-5)), position := some "" } false =
      [requiredMsg "name", requiredMsg "position", "Invalid email format",
       "Age must be between 0 and 150"] ∧
    (validate { name := some "", email := some "bad",
                age := some (AgeVal.ival (-5)), position := some "" } false).Nodup ∧
    4 ≤ (validate { name := some "", email := some "bad",
                    age := some (AgeVal.ival (-5)), position := some "" } false).length ∧
    (∀ (st : Store) (now : String),
      (postUser st { name := some "", email := some "bad",
                     age := some (AgeVal.ival (-5)), position := some "" } now).1 =
        PostResp.invalid (validate { name := some "", email := some "bad",
                                     age := some (AgeVal.ival (-5)),
                                     position := some "" } false)) ∧
    (∀ (st : Store) (d : Payload) (now : String),
      validate d false = [] →
      ∀ e, (postUser st d now).1 ≠ PostResp.invalid e) := by
  refine ⟨by decide, by decide, by decide, ?_, ?_⟩
  · intro st now
    have hie : (validate { name := some "", email := some "bad",
                           age := some (AgeVal.ival (-5)),
                           position := some "" } false).isEmpty = false := by
      decide
    unfold postUser
    simp [hie]
  · intro st d now he e
    have hie : (validate d false).isEmpty = true := by simp [he]
    unfold postUser
    simp only [hie, if_true]
    split
    · simp
    · split <;> simp

/-- Witness for C5: a payload with empty validation result is not rejected
as ValidationFailed. -/
theorem flask_C5_witness :
    (postUser initStore
      { name := some "Carol White", email := some "carol@example.com",
        age := some (AgeVal.ival 33), position := some "Analyst" }
      "2025-10-12 15:00:00").1 ≠ PostResp.invalid [] :=
  flask_C5.2.2.2.2 initStore
    { name := some "Carol White", email := some "carol@example.com",
      age := some (AgeVal.ival 33), position := some "Analyst" }
    "2025-10-12 15:00:00" (by decide) []

/-- Claim C10: an age of integer 0 or empty string is treated as a missing
age by create-mode validation, producing the age-required error and a
ValidationFailed POST response with the store unchanged; consequently no
record with age 0 (or empty-string age) is ever created by the POST
handler. -/
theorem flask_C10 :
    (∀ (st : Store) (d : Payload) (now : String),
      (d.age = some (AgeVal.ival 0) ∨ d.age = some (AgeVal.sval "")) →
      requiredMsg "age" ∈ validate d false ∧
      postUser st d now = (PostResp.invalid (validate d false), st)) ∧
    (∀ (st : Store) (d : Payload) (now : String) (u : User) (st2 : Store),
      postUser st d now = (PostResp.created u, st2) →
      u.age ≠ some (AgeVal.ival 0) ∧ u.age ≠ some (AgeVal.sval "")) := by
  constructor
  · intro st d now hage
    have hpt : presentTruthyAge d.age = false := by
      rcases hage with hage | hage <;>
        simp [hage, presentTruthyAge, AgeVal.truthy]
    have hmem : requiredMsg "age" ∈ validate d false := by
      unfold validate
      simp [hpt]
    refine ⟨hmem, ?_⟩
    have hie : (validate d false).isEmpty = false := by
      rcases hve : validate d false with _ | ⟨x, xs⟩
      · rw [hve] at hmem; simp at hmem
      · simp
    unfold postUser
    simp [hie]
  · intro st d now u st2 h
    obtain ⟨hv, hu, _⟩ := postUser_created h
    have hta := (validate_create_truthy hv).2.2.1
    have huage : u.age = d.age := by rw [hu]; rfl
    rw [huage]
    rcases hda : d.age with _ | a
    · simp
    · rw [hda] at hta
      cases a with
      | ival n =>
          simp [presentTruthyAge, AgeVal.truthy] at hta
          simp [hta]
      | sval s =>
          simp [presentTruthyAge, AgeVal.truthy] at hta
          simp [hta]

/-- Witness for C10: posting a payload with age 0 to the seeded store. -/
theorem flask_C10_witness :
    postUser initStore
      { name := some "Bob Stone", email := some "bob@example.com",
        age := some (AgeVal.ival 0), position := some "Engineer" }
      "2025-10-12 16:00:00" =
      (PostResp.invalid (validate
        { name := some "Bob Stone", email := some "bob@example.com",
          age := some (AgeVal.ival 0), position := some "Engineer" } false),
       initStore) :=
  (flask_C10.1 initStore
    { name := some "Bob Stone", email := some "bob@example.com",
      age := some (AgeVal.ival 0), position := some "Engineer" }
    "2025-10-12 16:00:00" (Or.inl rfl)).2

/-- Claim C6: after a successful handler-level delete of an identifier (on a
duplicate-free store, as a Python dict always is), a subsequent get returns
NotFound and a second delete of the same identifier returns NotFound with
the store unchanged; deleting an identifier that is absent returns NotFound
and leaves the store exactly as it was. -/
theorem flask_C6 :
    (∀ (st : Store) (uid : Nat) (u : User) (st2 : Store),
      (st.users.map User.id).Nodup →
      deleteUserH st uid = (DelResp.deletedOk u, st2) →
      getUserH st2 uid = GetResp.notFound ∧
      deleteUserH st2 uid = (DelResp.notFound, st2)) ∧
    (∀ (st : Store) (uid : Nat),
      getUserH st uid = GetResp.notFound →
      deleteUserH st uid = (DelResp.notFound, st)) := by
  constructor
  · intro st uid u st2 hnd h
    unfold deleteUserH delete_user at h
    cases hf : st.users.find? (fun v => v.id == uid) with
    | none => rw [hf] at h; simp at h
    | some u0 =>
        rw [hf] at h
        simp at h
        have hst2 : st2 = { st with users := dictRemove uid st.users } :=
          h.2.symm
        have hget : get_user_by_id st2 uid = none := by
          rw [hst2]
          unfold get_user_by_id
          exact find?_dictRemove hnd
        constructor
        · unfold getUserH
          rw [hget]
        · unfold deleteUserH delete_user
          unfold get_user_by_id at hget
          rw [hget]
  · intro st uid h
    unfold getUserH at h
    cases hf : get_user_by_id st uid with
    | none =>
        unfold deleteUserH delete_user
        unfold get_user_by_id at hf
        rw [hf]
    | some u0 => rw [hf] at h; simp at h

/-- Witness for C6: deleting seed user 1 twice from the seeded store. -/
theorem flask_C6_witness :
    getUserH (deleteUserH initStore 1).2 1 = GetResp.notFound ∧
    deleteUserH (deleteUserH initStore 1).2 1 =
      (DelResp.notFound, (deleteUserH initStore 1).2) :=
  flask_C6.1 initStore 1
    { id := 1, name := some "John Doe", email := some "john.doe@example.com",
      age := some (AgeVal.ival 30), position := some "Software Developer",
      created_at := "2025-09-29 21:42:00",
      updated_at := "2025-09-29 21:42:00" }
    (deleteUserH initStore 1).2 (by decide) (by decide)

set_option maxRecDepth 40000 in
/-- Counterexample to C3 as stated: a creation payload whose email equals a
stored email exactly (so certainly a case-insensitive match) but whose name
is empty is rejected by the POST handler as ValidationFailed (400), not
Conflict (409): validation runs before the duplicate-email scan. -/
theorem flask_C3_counterexample :
    initStore.users.any
      (fun v => v.email == some "john.doe@example.com") = true ∧
    postUser initStore
      { name := some "", email := some "john.doe@example.com",
        age := some (AgeVal.ival 30), position := some "Engineer" }
      "2025-10-12 09:00:00" =
      (PostResp.invalid [requiredMsg "name"], initStore) := by
  decide

/-- Claim C3 (amended): for every creation payload that passes validation
and whose email matches some stored email case-insensitively, the POST
handler answers Conflict and leaves the store unchanged, whatever the case
difference; for update, the same case-insensitive scan excludes the record
being updated, so an update that matches only another record conflicts,
while updating a record to its own email (no other record matching) never
yields Conflict. -/
theorem flask_C3 :
    (∀ (st : Store) (d : Payload) (now : String) (de e : String) (v : User),
      validate d false = [] → d.email = some de →
      (∀ w ∈ st.users, w.email.isSome = true) →
      v ∈ st.users → v.email = some e → lowerStr e = lowerStr de →
      postUser st d now = (PostResp.conflict, st)) ∧
    (∀ (st : Store) (uid : Nat) (d : Payload) (now : String)
        (de e : String) (v : User),
      (get_user_by_id st uid).isSome = true → validate d true = [] →
      d.email = some de →
      (∀ w ∈ st.users, w.email.isSome = true) →
      v ∈ st.users → v.id ≠ uid → v.email = some e →
      lowerStr e = lowerStr de →
      putUser st uid d now = (PutResp.conflict, st)) ∧
    (∀ (st : Store) (uid : Nat) (d : Payload) (now : String)
        (u0 : User) (e0 : String),
      get_user_by_id st uid = some u0 → validate d true = [] →
      u0.email = some e0 → d.email = some e0 →
      (∀ w ∈ st.users, w.email.isSome = true) →
      (∀ w ∈ st.users, w.id ≠ uid → ∀ e, w.email = some e →
        lowerStr e ≠ lowerStr e0) →
      (putUser st uid d now).1 ≠ PutResp.conflict) := by
  refine ⟨?_, ?_, ?_⟩
  · intro st d now de e v hv hde hall hvm hvem hm
    have hc := findConflict_true hall hvm hvem hm
    have hie : (validate d false).isEmpty = true := by simp [hv]
    unfold postUser
    simp [hie, hde, hc]
  · intro st uid d now de e v hg hv hde hall hvm hvid hvem hm
    have hc := findConflictExcl_true hall hvm hvid hvem hm
    have hie : (validate d true).isEmpty = true := by simp [hv]
    have hnn : (get_user_by_id st uid).isNone = false := by
      rcases hgo : get_user_by_id st uid with _ | u0
      · rw [hgo] at hg; simp at hg
      · simp
    unfold putUser
    simp [hnn, hie, hde, hc]
  · intro st uid d now u0 e0 hg hv hu0 hde hall hno
    have hc : findConflictExcl uid e0 st.users = some false :=
      findConflictExcl_false hall hno
    have hie : (validate d true).isEmpty = true := by simp [hv]
    have hnn : (get_user_by_id st uid).isNone = false := by
      rw [hg]; simp
    unfold putUser
    simp [hnn, hie, hde, hc]

set_option maxRecDepth 40000 in
/-- Witness for C3: posting an upper-cased duplicate of seed email 1 at the
seeded store yields Conflict and no new record. -/
theorem flask_C3_witness :
    postUser initStore
      { name := some "New Person", email := some "JOHN.DOE@EXAMPLE.COM",
        age := some (AgeVal.ival 40), position := some "Manager" }
      "2025-10-12 10:00:00" =
      (PostResp.conflict, initStore) :=
  flask_C3.1 initStore
    { name := some "New Person", email := some "JOHN.DOE@EXAMPLE.COM",
      age := some (AgeVal.ival 40), position := some "Manager" }
    "2025-10-12 10:00:00" "JOHN.DOE@EXAMPLE.COM" "john.doe@example.com"
    { id := 1, name := some "John Doe", email := some "john.doe@example.com",
      age := some (AgeVal.ival 30), position := some "Software Developer",
      created_at := "2025-09-29 21:42:00",
      updated_at := "2025-09-29 21:42:00" }
    (by decide) (by decide) (by decide) (by decide) (by decide) (by decide)

set_option maxRecDepth 40000 in
/-- Counterexample to C4 as stated: from the seeded state, the PUT handler
accepts the payload with name set to the empty string (update-mode
validation skips falsy values), reports a successful update, and persists a
record with an empty name — the store then contains a partial record. -/
theorem flask_C4_counterexample :
    isUpdatedSome (putUser initStore 1
      { name := some "", email := none, age := none, position := none }
      "2025-10-01 08:00:00").1 = true ∧
    (runH initStore
      [HOp.hput 1 { name := some "", email := none, age := none,
                    position := none } "2025-10-01 08:00:00"]).users.all
      recordComplete = false := by
  decide

/-- Claim C4 (amended): after every sequence of handler-level operations from
the seeded state in which every PUT payload assigns only truthy (non-empty,
non-zero) values to the fields it names, every stored record has all its
content fields populated and non-empty; creation alone can never persist a
partial record. -/
theorem flask_C4 (ops : List HOp) (h : opsTruthy ops = true) :
    (runH initStore ops).users.all recordComplete = true := by
  apply runH_complete ops initStore ?_ ?_ h
  · decide
  · decide

set_option maxRecDepth 40000 in
/-- Witness for C4 on a concrete trace: create, rename, delete. -/
theorem flask_C4_witness :
    (runH initStore
      [HOp.hpost { name := some "Dana Reed", email := some "dana@example.com",
                   age := some (AgeVal.ival 29), position := some "Tester" }
        "2025-10-12 17:00:00",
       HOp.hput 4 { name := some "Dana B Reed", email := none, age := none,
                    position := none } "2025-10-12 17:05:00",
       HOp.hdel 2]).users.all recordComplete = true :=
  flask_C4
    [HOp.hpost { name := some "Dana Reed", email := some "dana@example.com",
                 age := some (AgeVal.ival 29), position := some "Tester" }
      "2025-10-12 17:00:00",
     HOp.hput 4 { name := some "Dana B Reed", email := none, age := none,
                  position := none } "2025-10-12 17:05:00",
     HOp.hdel 2] (by decide)

set_option maxRecDepth 40000 in
/-- Counterexample to C9 as stated: the raw query " John" is not blank, yet
the handler matches and reports the stripped query "John" — the result set
contains a record (John Doe) none of whose fields contains " john". -/
theorem flask_C9_counterexample :
    pyStrip " John" ≠ "" ∧
    searchUsers initStore " John" =
      SearchResp.results (initStore.users.filter (fun u => matchesQ "John" u))
        2 "John" ∧
    (initStore.users.filter (fun u => matchesQ "John" u)).any
      (fun u => !(matchesQ " John" u)) = true := by
  refine ⟨by decide, by decide, by decide⟩

/-- Claim C9 (amended): a query that strips to the empty string (missing,
empty or whitespace-only) yields BadRequest; any other query is first
whitespace-trimmed, and the handler returns exactly the records whose name,
email or position contains the trimmed query case-insensitively, with their
count and the trimmed query; on seed data the query John returns the two
matching records, among them John Doe. -/
theorem flask_C9 :
    (∀ (st : Store) (q : String), pyStrip q = "" →
      searchUsers st q = SearchResp.badRequest) ∧
    (∀ (st : Store) (q : String), pyStrip q ≠ "" →
      (∀ u ∈ st.users, fieldsPresent u = true) →
      searchUsers st q =
        SearchResp.results
          (st.users.filter (fun u => matchesQ (pyStrip q) u))
          (st.users.filter (fun u => matchesQ (pyStrip q) u)).length
          (pyStrip q)) ∧
    searchUsers initStore "John" =
      SearchResp.results (initStore.users.filter (fun u => matchesQ "John" u))
        2 "John" ∧
    (initStore.users.filter (fun u => matchesQ "John" u)).any
      (fun u => u.name == some "John Doe") = true := by
  refine ⟨?_, ?_, by decide, by decide⟩
  · intro st q h
    unfold searchUsers
    simp [h]
  · intro st q h hall
    have hc := collectMatches_total (q := pyStrip q) hall
    unfold searchUsers
    simp [h, hc]

set_option maxRecDepth 40000 in
/-- Witness for C9: a non-blank query with trailing whitespace. -/
theorem flask_C9_witness :
    searchUsers initStore "John " =
      SearchResp.results
        (initStore.users.filter (fun u => matchesQ (pyStrip "John ") u))
        (initStore.users.filter (fun u => matchesQ (pyStrip "John ") u)).length
        (pyStrip "John ") :=
  flask_C9.2.1 initStore "John " (by decide) (by decide)
